import Mathlib

/-!
# Verification of the imgx ingestion-and-classification pipeline

Shallow embedding of the imgx CLI core (`src/input.ts`, `src/output.ts`,
`src/types.ts`) in Lean 4, together with theorems settling the spec claims.

Modelling conventions:
* Byte buffers (`Uint8Array`, `ArrayBuffer`, `Buffer`) are `List Nat` with each
  entry `< 256` where it matters; out-of-range JS indexing (`bytes[i]` giving
  `undefined`) is modelled with `List.get?`.
* JS strings are Lean `String`s; JS string truthiness (empty string is falsy)
  is modelled explicitly.
* Fallible code and `process.exit(code)` control flow are modelled with
  `Except Nat` carrying the exit code; `process.exit` aborts the whole
  invocation, so no code after it runs.
* The ambient platform (filesystem, stdin, HTTP fetch, clipboard, clock) is an
  explicit environment record / explicit clock parameter.
-/

/-- Exit code for success (`src/types.ts`). -/
def EXIT_SUCCESS : Nat := 0

/-- Exit code for API errors (`src/types.ts`). -/
def EXIT_API_ERROR : Nat := 1

/-- Exit code for input errors (`src/types.ts`). -/
def EXIT_INPUT_ERROR : Nat := 2

/-! ## Base64 (platform collaborators `Buffer.toString("base64")` and
`Buffer.from(s, "base64")`, RFC 4648 with padding) -/

/-- The 64-character base64 alphabet. -/
def b64Alphabet : List Char :=
  ['A', 'B', 'C', 'D', 'E', 'F', 'G', 'H', 'I', 'J', 'K', 'L', 'M',
   'N', 'O', 'P', 'Q', 'R', 'S', 'T', 'U', 'V', 'W', 'X', 'Y', 'Z',
   'a', 'b', 'c', 'd', 'e', 'f', 'g', 'h', 'i', 'j', 'k', 'l', 'm',
   'n', 'o', 'p', 'q', 'r', 's', 't', 'u', 'v', 'w', 'x', 'y', 'z',
   '0', '1', '2', '3', '4', '5', '6', '7', '8', '9', '+', '/']

/-- Character for a 6-bit value. -/
def b64Char (n : Nat) : Char := b64Alphabet.getD n 'A'

/-- The 6-bit value of an alphabet character (64 for characters outside the
alphabet; such characters only arise at padding positions, which the decoder
branches on before consulting this table). -/
def b64Val (c : Char) : Nat := b64Alphabet.indexOf c

/-- Base64 encoding of a byte list, as performed by the platform when the
loader calls `Buffer.from(buffer).toString("base64")`. -/
def encodeB64 : List Nat → List Char
  | a :: b :: c :: rest =>
      b64Char (a / 4) :: b64Char (a % 4 * 16 + b / 16) ::
      b64Char (b % 16 * 4 + c / 64) :: b64Char (c % 64) :: encodeB64 rest
  | [a, b] => [b64Char (a / 4), b64Char (a % 4 * 16 + b / 16), b64Char (b % 16 * 4), '=']
  | [a] => [b64Char (a / 4), b64Char (a % 4 * 16), '=', '=']
  | [] => []

/-- Base64 decoding of a character list, as performed by the platform when the
persister calls `Buffer.from(data, "base64")` (canonical inputs; an unpadded
final group of two or three characters decodes like Node's `Buffer.from`). -/
def decodeB64 : List Char → List Nat
  | c1 :: c2 :: c3 :: c4 :: rest =>
      if c3 = '=' then [b64Val c1 * 4 + b64Val c2 / 16]
      else if c4 = '=' then
        [b64Val c1 * 4 + b64Val c2 / 16, b64Val c2 % 16 * 16 + b64Val c3 / 4]
      else
        (b64Val c1 * 4 + b64Val c2 / 16) :: (b64Val c2 % 16 * 16 + b64Val c3 / 4) ::
        (b64Val c3 % 4 * 64 + b64Val c4) :: decodeB64 rest
  | [c1, c2, c3] => [b64Val c1 * 4 + b64Val c2 / 16, b64Val c2 % 16 * 16 + b64Val c3 / 4]
  | [c1, c2] => [b64Val c1 * 4 + b64Val c2 / 16]
  | _ => []

/-- Function `toBase64` from `src/input.ts`: `Buffer.from(buffer).toString("base64")`. -/
def toBase64 (buffer : List Nat) : String := String.mk (encodeB64 buffer)

/-! ## Media type sniffer and extension table (`src/input.ts`) -/

/-- Table `MIME_EXTENSIONS` from `src/input.ts`. -/
def MIME_EXTENSIONS : List (String × String) :=
  [(".jpg", "image/jpeg"),
   (".jpeg", "image/jpeg"),
   (".png", "image/png"),
   (".webp", "image/webp"),
   (".gif", "image/gif"),
   (".heic", "image/heic"),
   (".heif", "image/heif"),
   (".bmp", "image/bmp"),
   (".tiff", "image/tiff"),
   (".tif", "image/tiff"),
   (".svg", "image/svg+xml")]

/-- Function `detectMimeFromBytes` from `src/input.ts`.  JS indexing past the end of a
`Uint8Array` yields `undefined`, which compares unequal to every number; this
is modelled with the optional index access `bytes[i]?`. -/
def detectMimeFromBytes (bytes : List Nat) : Option String :=
  if bytes[0]? = some 0x89 ∧ bytes[1]? = some 0x50 ∧
     bytes[2]? = some 0x4e ∧ bytes[3]? = some 0x47 then some "image/png"
  else if bytes[0]? = some 0xff ∧ bytes[1]? = some 0xd8 ∧
     bytes[2]? = some 0xff then some "image/jpeg"
  else if bytes[0]? = some 0x47 ∧ bytes[1]? = some 0x49 ∧
     bytes[2]? = some 0x46 ∧ bytes[3]? = some 0x38 then some "image/gif"
  else if bytes[0]? = some 0x52 ∧ bytes[1]? = some 0x49 ∧
     bytes[2]? = some 0x46 ∧ bytes[3]? = some 0x46 ∧
     bytes[8]? = some 0x57 ∧ bytes[9]? = some 0x45 ∧
     bytes[10]? = some 0x42 ∧ bytes[11]? = some 0x50 then some "image/webp"
  else if bytes[0]? = some 0x42 ∧ bytes[1]? = some 0x4d then some "image/bmp"
  else none

/-- The final-dot-extension of a path, modelling the JS regular expression
match `path.match(/\.[^.]+$/)?.[0] ?? ""` in `mimeFromExtension`: the last
`'.'` of the string together with everything after it, provided that suffix is
nonempty and contains no further `'.'`; otherwise the empty string. -/
def lastDotExt (s : String) : String :=
  let rev := s.data.reverse
  let suffix := rev.takeWhile (fun c => c != '.')
  if suffix.length < rev.length && !suffix.isEmpty then
    String.mk ('.' :: suffix.reverse)
  else ""

/-- Function `mimeFromExtension` from `src/input.ts`:
`MIME_EXTENSIONS[path.toLowerCase().match(/\.[^.]+$/)?.[0] ?? ""] ?? "image/jpeg"`. -/
def mimeFromExtension (path : String) : String :=
  let ext := lastDotExt (String.mk (path.data.map Char.toLower))
  (MIME_EXTENSIONS.lookup ext).getD "image/jpeg"

/-! ## Source loader (`src/input.ts`) -/

/-- The `inlineData` payload of a `Part` produced by `makePart`. -/
structure MediaPart where
  data : String
  mimeType : String
deriving DecidableEq

/-- Function `makePart` from `src/input.ts`. -/
def makePart (data : String) (mimeType : String) : MediaPart := ⟨data, mimeType⟩

/-- Result of the platform `fetch` collaborator: either a transport error
(the `catch` branch of `loadFromUrl`) or an HTTP response. -/
structure HttpResponse where
  ok : Bool
  status : Nat
  body : List Nat
  contentType : Option String

/-- Outcome of `fetch(url)`. -/
inductive FetchResult where
  | fetchErr (msg : String)
  | fetchOk (response : HttpResponse)

/-- The ambient platform as seen by the source loader: stdin contents, the
filesystem (contents of a resolved path, `none` = absent), the `path.resolve`
collaborator, the HTTP client, and the clipboard (the PNG byte stream that the
AppleScript `the clipboard as PNGf` extraction would write, `none` = no image
data in the clipboard). -/
structure LoadEnv where
  stdinBytes : List Nat
  fs : String → Option (List Nat)
  resolvePath : String → String
  http : String → FetchResult
  clipboardPng : Option (List Nat)

/-- Body of `loadFromFile` from `src/input.ts` after path resolution, given the
file contents at the resolved path (`none` = file does not exist).  `process.exit`
on a missing or empty file is the `Except.error` exit code. -/
def loadFromFileAux (filePath : String) (content : Option (List Nat)) :
    Except Nat MediaPart :=
  match content with
  | none => Except.error EXIT_INPUT_ERROR
  | some bytes =>
    if bytes = [] then Except.error EXIT_INPUT_ERROR
    else
      Except.ok (makePart (toBase64 bytes)
        ((detectMimeFromBytes bytes).getD (mimeFromExtension filePath)))

/-- Function `loadFromFile` from `src/input.ts`. -/
def loadFromFile (env : LoadEnv) (filePath : String) : Except Nat MediaPart :=
  loadFromFileAux filePath (env.fs (env.resolvePath filePath))

/-- The JS `String.prototype.startsWith`. -/
def strStartsWith (s pre : String) : Bool := pre.data.isPrefixOf s.data

/-- Splits a character list at every occurrence of `sep`, exactly like the JS
`String.prototype.split` with a one-character separator. -/
def splitOnChar (sep : Char) : List Char → List (List Char)
  | [] => [[]]
  | c :: rest =>
    match splitOnChar sep rest with
    | [] => [[]]
    | g :: gs => if c = sep then [] :: g :: gs else (c :: g) :: gs

/-- Function `loadFromUrl` from `src/input.ts`. -/
def loadFromUrl (env : LoadEnv) (url : String) : Except Nat MediaPart :=
  match env.http url with
  | FetchResult.fetchErr _ => Except.error EXIT_INPUT_ERROR
  | FetchResult.fetchOk r =>
    if !r.ok then Except.error EXIT_INPUT_ERROR
    else if r.body = [] then Except.error EXIT_INPUT_ERROR
    else
      let contentType :=
        (r.contentType.map (fun s => String.mk ((splitOnChar ';' s.data).headD []))).getD ""
      let mimeType := (detectMimeFromBytes r.body).getD
        (if strStartsWith contentType "image/" then contentType else "image/jpeg")
      Except.ok (makePart (toBase64 r.body) mimeType)

/-- Function `loadFromStdin` from `src/input.ts`. -/
def loadFromStdin (env : LoadEnv) : Except Nat MediaPart :=
  if env.stdinBytes = [] then Except.error EXIT_INPUT_ERROR
  else
    Except.ok (makePart (toBase64 env.stdinBytes)
      ((detectMimeFromBytes env.stdinBytes).getD "image/png"))

/-- The temporary file path `/tmp/imgx-clipboard-${Date.now()}.png` used by
`loadFromClipboard`. -/
def clipboardTmpPath (now : Nat) : String :=
  "/tmp/imgx-clipboard-" ++ toString now ++ ".png"

/-- Function `loadFromClipboard` from `src/input.ts`.  The AppleScript helper opens the
temporary file for write access (creating it), then either writes the clipboard
PNG data to it or errors with a nonzero exit code; on nonzero exit the function
calls `process.exit` immediately, and `loadFromFile` likewise exits the process
on an empty file — in both cases the `unlinkSync` cleanup after the
`loadFromFile` call never runs.  The second component of the result records
whether the temporary file is left on disk when the call finishes (by return or
by process exit). -/
def loadFromClipboard (env : LoadEnv) (now : Nat) : Except Nat MediaPart × Bool :=
  match env.clipboardPng with
  | none => (Except.error EXIT_INPUT_ERROR, true)
  | some bytes =>
    match loadFromFileAux (clipboardTmpPath now) (some bytes) with
    | Except.error e => (Except.error e, true)
    | Except.ok part => (Except.ok part, false)

/-- Function `loadImagePart` from `src/input.ts`: descriptor dispatch.  `now` is the
millisecond clock reading used by the clipboard path for its temporary file
name. -/
def loadImagePart (env : LoadEnv) (now : Nat) (source : String) :
    Except Nat MediaPart :=
  if source = "-" then loadFromStdin env
  else if source = "clipboard" then (loadFromClipboard env now).1
  else if strStartsWith source "http://" || strStartsWith source "https://" then
    loadFromUrl env source
  else loadFromFile env source

/-! ## Response classifier (`src/output.ts`, `src/types.ts`) -/

/-- The `type` discriminator of `ParsedPart` (`src/types.ts`). -/
inductive PartType where
  | text
  | thought
  | code
  | result
  | image
deriving DecidableEq, BEq

/-- Structure `ParsedPart` from `src/types.ts`. -/
structure ParsedPart where
  type : PartType
  content : String
  mimeType : Option String := none
  data : Option String := none
deriving DecidableEq

/-- The `inlineData` field of a response part (`@google/genai` shape). -/
structure InlineData where
  mimeType : Option String
  data : Option String
deriving DecidableEq

/-- The `executableCode` field of a response part. -/
structure ExecutableCode where
  code : Option String
deriving DecidableEq

/-- The `codeExecutionResult` field of a response part. -/
structure CodeExecutionResult where
  output : Option String
deriving DecidableEq

/-- One element of a candidate content list (`@google/genai` `Part` shape,
restricted to the fields `parseResponse` reads).  `thought` is a boolean flag
(absent = `false`). -/
structure GenPart where
  thought : Bool
  text : Option String
  executableCode : Option ExecutableCode
  codeExecutionResult : Option CodeExecutionResult
  inlineData : Option InlineData
deriving DecidableEq

/-- The `content` field of a candidate. -/
structure GenContent where
  parts : Option (List GenPart)
deriving DecidableEq

/-- One response candidate. -/
structure GenCandidate where
  content : Option GenContent
deriving DecidableEq

/-- The response shape `parseResponse` consumes. -/
structure GenerateContentResponse where
  candidates : Option (List GenCandidate)
deriving DecidableEq

/-- JS string truthiness of an optional string field: present and nonempty. -/
def strTruthy : Option String → Bool
  | none => false
  | some s => !s.data.isEmpty

/-- Loop body of `parseResponse` from `src/output.ts`: the first-match-wins
if/else chain classifying one content element, `none` when no rule matches
(the element is skipped). -/
def classifyPart (part : GenPart) : Option ParsedPart :=
  if part.thought && strTruthy part.text then
    some ⟨PartType.thought, part.text.getD "", none, none⟩
  else if strTruthy part.text then
    some ⟨PartType.text, part.text.getD "", none, none⟩
  else if strTruthy (part.executableCode.bind ExecutableCode.code) then
    some ⟨PartType.code, (part.executableCode.bind ExecutableCode.code).getD "", none, none⟩
  else if (part.codeExecutionResult).isSome then
    some ⟨PartType.result, (part.codeExecutionResult.bind CodeExecutionResult.output).getD "",
          none, none⟩
  else if strTruthy (part.inlineData.bind InlineData.data) then
    some ⟨PartType.image, "", part.inlineData.bind InlineData.mimeType,
          part.inlineData.bind InlineData.data⟩
  else none

/-- Function `parseResponse` from `src/output.ts`: empty result when candidates are
absent or empty, else the elements of the first candidate's content list
(`candidates[0].content?.parts ?? []`) classified in order. -/
def parseResponse (response : GenerateContentResponse) : List ParsedPart :=
  match response.candidates with
  | none => []
  | some [] => []
  | some (c :: _) => ((c.content.bind GenContent.parts).getD []).filterMap classifyPart

/-! ## Image persister (`src/output.ts`) -/

/-- Replaces the first occurrence of `pat` in a character list by `rep`,
exactly like the JS `String.prototype.replace` with two string arguments. -/
def listReplaceFirst (pat rep : List Char) : List Char → List Char
  | [] => if pat = [] then rep else []
  | c :: rest =>
    if pat.isPrefixOf (c :: rest) then rep ++ (c :: rest).drop pat.length
    else c :: listReplaceFirst pat rep rest

/-- Whether `pat` occurs as a contiguous substring. -/
def hasSubstr (pat : List Char) : List Char → Bool
  | [] => pat.isEmpty
  | c :: rest => pat.isPrefixOf (c :: rest) || hasSubstr pat rest

/-- The extension expression of `saveImages` in `src/output.ts`:
`img.mimeType?.split("/")[1]?.replace("jpeg", "jpg") ?? "png"`. -/
def imageExt (mimeType : Option String) : String :=
  match mimeType with
  | none => "png"
  | some m =>
    match (splitOnChar '/' m.data).get? 1 with
    | none => "png"
    | some sub => String.mk (listReplaceFirst ['j', 'p', 'e', 'g'] ['j', 'p', 'g'] sub)

/-- The `path.join(outputDir, filename)` collaborator, without the library's
path normalization (which no claim depends on). -/
def joinPath (dir name : String) : String := dir ++ "/" ++ name

/-- One file written by `saveImages`: the directory, the `Date.now()` reading
and `paths.length` index used in its name, the derived extension, and the
decoded bytes handed to `Bun.write`. -/
structure WrittenFile where
  dir : String
  timestamp : Nat
  index : Nat
  ext : String
  bytes : List Nat
deriving DecidableEq

/-- The filename `imgx-${Date.now()}-${paths.length}.${ext}` built by
`saveImages`. -/
def fileName (w : WrittenFile) : String :=
  "imgx-" ++ toString w.timestamp ++ "-" ++ toString w.index ++ "." ++ w.ext

/-- The full path of a written file. -/
def filePath (w : WrittenFile) : String := joinPath w.dir (fileName w)

/-- Loop of `saveImages` over the filtered image parts.  `clock k` is the value
`Date.now()` returns at the `k`-th iteration (the code reads the clock once per
image, inside the loop); `k` is `paths.length` at that point. -/
def saveImagesGo (clock : Nat → Nat) (outputDir : String) :
    List ParsedPart → Nat → List WrittenFile
  | [], _ => []
  | img :: rest, k =>
    ⟨outputDir, clock k, k, imageExt img.mimeType, decodeB64 (img.data.getD "").data⟩ ::
      saveImagesGo clock outputDir rest (k + 1)

/-- Function `saveImages` from `src/output.ts`, with the filesystem side effects
reified: returns the files written, in order.  Directory creation
(`mkdirSync`, idempotent) and the `Saved:` diagnostics on stderr are effects no
claim inspects and are not reified. -/
def saveImages (parts : List ParsedPart) (outputDir : String) (clock : Nat → Nat) :
    List WrittenFile :=
  saveImagesGo clock outputDir (parts.filter (fun p => p.type == PartType.image)) 0

/-! ## Output renderer (`src/output.ts`) -/

/-- Structure `ImgxOptions` from `src/types.ts`.  `timeout` is seconds; fractional
values are out of scope here (no claim concerns them). -/
structure ImgxOptions where
  verbose : Bool
  code : Bool
  images : String
  json : Bool
  quiet : Bool
  model : String
  system : Option String := none
  timeout : Option Nat := none

/-- Name of a part type as serialized in JSON output. -/
def partTypeName : PartType → String
  | PartType.text => "text"
  | PartType.thought => "thought"
  | PartType.code => "code"
  | PartType.result => "result"
  | PartType.image => "image"

/-- Models the platform serialization `JSON.stringify(parts, null, 2)` used by
the JSON output mode; the exact text layout is a collaborator detail, modelled
as a deterministic serialization of all parts and fields. -/
def jsonStringify (parts : List ParsedPart) : String :=
  String.intercalate "\n"
    (parts.map (fun p =>
      partTypeName p.type ++ ": " ++ p.content ++ " " ++
        (p.mimeType.getD "") ++ " " ++ (p.data.getD "")))

/-- The per-part line of the verbose mode `switch` in `formatOutput`. -/
def verboseLine (p : ParsedPart) : String :=
  match p.type with
  | PartType.thought => "\n--- Thinking ---\n" ++ p.content
  | PartType.text => p.content
  | PartType.code => "\n```python\n" ++ p.content ++ "\n```"
  | PartType.result => "\n--- Execution Result ---\n" ++ p.content
  | PartType.image => "[Generated image saved]"

/-- Function `formatOutput` from `src/output.ts`, with the primary output stream
reified: the returned list holds the successive `console.log` payloads. -/
def formatOutput (parts : List ParsedPart) (opts : ImgxOptions) : List String :=
  if opts.json then [jsonStringify parts]
  else if opts.quiet then []
  else if opts.code then
    parts.filterMap (fun p => if p.type == PartType.code then some p.content else none)
  else if opts.verbose then parts.map verboseLine
  else parts.filterMap (fun p => if p.type == PartType.text then some p.content else none)

/-- Modelled from the spec: the five mutually exclusive render modes of §4.5. -/
inductive RenderMode where
  | jsonMode
  | quietMode
  | codeOnly
  | verboseMode
  | defaultMode
deriving DecidableEq

/-- Modelled from the spec (§4.5): the mode selected for a given option
record, with the specified precedence — JSON first, then quiet, then
code-only, then verbose, else default. -/
def modeOf (opts : ImgxOptions) : RenderMode :=
  if opts.json then RenderMode.jsonMode
  else if opts.quiet then RenderMode.quietMode
  else if opts.code then RenderMode.codeOnly
  else if opts.verbose then RenderMode.verboseMode
  else RenderMode.defaultMode

/-! ## Helper lemmas about byte indexing -/

/-- An index below `n` reads the same byte from `l` and from a known value of
`l.take n`. -/
theorem getElem?_of_take {l sig : List Nat} {n : Nat} (h : l.take n = sig) {i : Nat}
    (hi : i < n) : l[i]? = sig[i]? := by
  rw [← h]
  exact (List.getElem?_take_of_lt hi).symm

/-- Two known leading bytes determine `l.take 2`. -/
theorem take2_of_getElem? {l : List Nat} {a b : Nat}
    (h0 : l[0]? = some a) (h1 : l[1]? = some b) : l.take 2 = [a, b] := by
  rcases l with - | ⟨x0, l⟩
  · simp at h0
  rcases l with - | ⟨x1, l⟩
  · simp at h1
  simp only [List.getElem?_cons_zero, List.getElem?_cons_succ, Option.some.injEq] at h0 h1
  simp [h0, h1]

/-- Three known leading bytes determine `l.take 3`. -/
theorem take3_of_getElem? {l : List Nat} {a b c : Nat}
    (h0 : l[0]? = some a) (h1 : l[1]? = some b) (h2 : l[2]? = some c) :
    l.take 3 = [a, b, c] := by
  rcases l with - | ⟨x0, l⟩
  · simp at h0
  rcases l with - | ⟨x1, l⟩
  · simp at h1
  rcases l with - | ⟨x2, l⟩
  · simp at h2
  simp only [List.getElem?_cons_zero, List.getElem?_cons_succ, Option.some.injEq] at h0 h1 h2
  simp [h0, h1, h2]

/-- Four known leading bytes determine `l.take 4`. -/
theorem take4_of_getElem? {l : List Nat} {a b c d : Nat}
    (h0 : l[0]? = some a) (h1 : l[1]? = some b) (h2 : l[2]? = some c)
    (h3 : l[3]? = some d) : l.take 4 = [a, b, c, d] := by
  rcases l with - | ⟨x0, l⟩
  · simp at h0
  rcases l with - | ⟨x1, l⟩
  · simp at h1
  rcases l with - | ⟨x2, l⟩
  · simp at h2
  rcases l with - | ⟨x3, l⟩
  · simp at h3
  simp only [List.getElem?_cons_zero, List.getElem?_cons_succ, Option.some.injEq]
    at h0 h1 h2 h3
  simp [h0, h1, h2, h3]

/-- Claim C6. For every byte buffer, the sniffer returns PNG for leading bytes
`0x89 0x50 0x4E 0x47`, JPEG for `0xFF 0xD8 0xFF`, GIF for `GIF8`, WEBP for
`RIFF` at offset 0 together with `WEBP` at offset 8, BMP for `BM`, and
`Unknown` (`none`) for everything else — including the empty buffer and
buffers shorter than a signature requires; it is a total function whose result
is always one of the five media types or `none`, so no exception is ever
raised. -/
theorem c6_sniffer :
    (∀ l : List Nat, l.take 4 = [0x89, 0x50, 0x4e, 0x47] →
        detectMimeFromBytes l = some "image/png") ∧
    (∀ l : List Nat, l.take 3 = [0xff, 0xd8, 0xff] →
        detectMimeFromBytes l = some "image/jpeg") ∧
    (∀ l : List Nat, l.take 4 = [0x47, 0x49, 0x46, 0x38] →
        detectMimeFromBytes l = some "image/gif") ∧
    (∀ l : List Nat, l.take 4 = [0x52, 0x49, 0x46, 0x46] →
        (l.drop 8).take 4 = [0x57, 0x45, 0x42, 0x50] →
        detectMimeFromBytes l = some "image/webp") ∧
    (∀ l : List Nat, l.take 2 = [0x42, 0x4d] →
        detectMimeFromBytes l = some "image/bmp") ∧
    (∀ l : List Nat,
        l.take 4 ≠ [0x89, 0x50, 0x4e, 0x47] →
        l.take 3 ≠ [0xff, 0xd8, 0xff] →
        l.take 4 ≠ [0x47, 0x49, 0x46, 0x38] →
        ¬(l.take 4 = [0x52, 0x49, 0x46, 0x46] ∧
          (l.drop 8).take 4 = [0x57, 0x45, 0x42, 0x50]) →
        l.take 2 ≠ [0x42, 0x4d] →
        detectMimeFromBytes l = none) ∧
    detectMimeFromBytes [] = none ∧
    detectMimeFromBytes [0x89, 0x50] = none ∧
    (∀ l : List Nat,
        detectMimeFromBytes l = none ∨
        detectMimeFromBytes l ∈ [some "image/png", some "image/jpeg",
          some "image/gif", some "image/webp", some "image/bmp"]) := by
  refine ⟨?png, ?jpeg, ?gif, ?webp, ?bmp, ?unknown, by decide, by decide, ?total⟩
  case png =>
    intro l h
    have h0 : l[0]? = some 0x89 := (getElem?_of_take h (by omega)).trans rfl
    have h1 : l[1]? = some 0x50 := (getElem?_of_take h (by omega)).trans rfl
    have h2 : l[2]? = some 0x4e := (getElem?_of_take h (by omega)).trans rfl
    have h3 : l[3]? = some 0x47 := (getElem?_of_take h (by omega)).trans rfl
    unfold detectMimeFromBytes
    rw [if_pos ⟨h0, h1, h2, h3⟩]
  case jpeg =>
    intro l h
    have h0 : l[0]? = some 0xff := (getElem?_of_take h (by omega)).trans rfl
    have h1 : l[1]? = some 0xd8 := (getElem?_of_take h (by omega)).trans rfl
    have h2 : l[2]? = some 0xff := (getElem?_of_take h (by omega)).trans rfl
    unfold detectMimeFromBytes
    rw [if_neg (by rintro ⟨hp, -⟩; rw [h0] at hp; simp at hp), if_pos ⟨h0, h1, h2⟩]
  case gif =>
    intro l h
    have h0 : l[0]? = some 0x47 := (getElem?_of_take h (by omega)).trans rfl
    have h1 : l[1]? = some 0x49 := (getElem?_of_take h (by omega)).trans rfl
    have h2 : l[2]? = some 0x46 := (getElem?_of_take h (by omega)).trans rfl
    have h3 : l[3]? = some 0x38 := (getElem?_of_take h (by omega)).trans rfl
    unfold detectMimeFromBytes
    rw [if_neg (by rintro ⟨hp, -⟩; rw [h0] at hp; simp at hp),
        if_neg (by rintro ⟨hp, -⟩; rw [h0] at hp; simp at hp),
        if_pos ⟨h0, h1, h2, h3⟩]
  case webp =>
    intro l h hdrop
    have h0 : l[0]? = some 0x52 := (getElem?_of_take h (by omega)).trans rfl
    have h1 : l[1]? = some 0x49 := (getElem?_of_take h (by omega)).trans rfl
    have h2 : l[2]? = some 0x46 := (getElem?_of_take h (by omega)).trans rfl
    have h3 : l[3]? = some 0x46 := (getElem?_of_take h (by omega)).trans rfl
    have h8 : l[8]? = some 0x57 :=
      (List.getElem?_drop l 8 0).symm.trans ((getElem?_of_take hdrop (by omega)).trans rfl)
    have h9 : l[9]? = some 0x45 :=
      (List.getElem?_drop l 8 1).symm.trans ((getElem?_of_take hdrop (by omega)).trans rfl)
    have h10 : l[10]? = some 0x42 :=
      (List.getElem?_drop l 8 2).symm.trans ((getElem?_of_take hdrop (by omega)).trans rfl)
    have h11 : l[11]? = some 0x50 :=
      (List.getElem?_drop l 8 3).symm.trans ((getElem?_of_take hdrop (by omega)).trans rfl)
    unfold detectMimeFromBytes
    rw [if_neg (by rintro ⟨hp, -⟩; rw [h0] at hp; simp at hp),
        if_neg (by rintro ⟨hp, -⟩; rw [h0] at hp; simp at hp),
        if_neg (by rintro ⟨hp, -⟩; rw [h0] at hp; simp at hp),
        if_pos ⟨h0, h1, h2, h3, h8, h9, h10, h11⟩]
  case bmp =>
    intro l h
    have h0 : l[0]? = some 0x42 := (getElem?_of_take h (by omega)).trans rfl
    have h1 : l[1]? = some 0x4d := (getElem?_of_take h (by omega)).trans rfl
    unfold detectMimeFromBytes
    rw [if_neg (by rintro ⟨hp, -⟩; rw [h0] at hp; simp at hp),
        if_neg (by rintro ⟨hp, -⟩; rw [h0] at hp; simp at hp),
        if_neg (by rintro ⟨hp, -⟩; rw [h0] at hp; simp at hp),
        if_neg (by rintro ⟨hp, -⟩; rw [h0] at hp; simp at hp),
        if_pos ⟨h0, h1⟩]
  case unknown =>
    intro l hn1 hn2 hn3 hn4 hn5
    unfold detectMimeFromBytes
    rw [if_neg (by rintro ⟨g0, g1, g2, g3⟩; exact hn1 (take4_of_getElem? g0 g1 g2 g3)),
        if_neg (by rintro ⟨g0, g1, g2⟩; exact hn2 (take3_of_getElem? g0 g1 g2)),
        if_neg (by rintro ⟨g0, g1, g2, g3⟩; exact hn3 (take4_of_getElem? g0 g1 g2 g3)),
        if_neg (by
          rintro ⟨g0, g1, g2, g3, g8, g9, g10, g11⟩
          refine hn4 ⟨take4_of_getElem? g0 g1 g2 g3, take4_of_getElem? ?_ ?_ ?_ ?_⟩
          · exact (List.getElem?_drop l 8 0).trans g8
          · exact (List.getElem?_drop l 8 1).trans g9
          · exact (List.getElem?_drop l 8 2).trans g10
          · exact (List.getElem?_drop l 8 3).trans g11),
        if_neg (by rintro ⟨g0, g1⟩; exact hn5 (take2_of_getElem? g0 g1))]
  case total =>
    intro l
    unfold detectMimeFromBytes
    split_ifs <;> simp

/-- Witness for C6: the sniffer theorem applied at the spec's concrete
buffers. -/
theorem c6_sniffer_witness :
    detectMimeFromBytes [0x89, 0x50, 0x4e, 0x47, 0x0d, 0x0a, 0x1a, 0x0a] = some "image/png" ∧
    detectMimeFromBytes [0xff, 0xd8, 0xff, 0xe0] = some "image/jpeg" ∧
    detectMimeFromBytes [0x47, 0x49, 0x46, 0x38, 0x39, 0x61] = some "image/gif" ∧
    detectMimeFromBytes [0x52, 0x49, 0x46, 0x46, 0, 0, 0, 0, 0x57, 0x45, 0x42, 0x50] =
      some "image/webp" ∧
    detectMimeFromBytes [0x42, 0x4d, 0, 0] = some "image/bmp" ∧
    detectMimeFromBytes [0, 1, 2, 3] = none :=
  ⟨c6_sniffer.1 _ (by decide),
   c6_sniffer.2.1 _ (by decide),
   c6_sniffer.2.2.1 _ (by decide),
   c6_sniffer.2.2.2.1 _ (by decide) (by decide),
   c6_sniffer.2.2.2.2.1 _ (by decide),
   c6_sniffer.2.2.2.2.2.1 _ (by decide) (by decide) (by decide) (by decide) (by decide)⟩

/-! ## C7: source descriptor dispatch -/

/-- Claim C7. For every source descriptor string, the loader dispatches with
exactly this precedence: the literal `-` selects stdin; then the literal
`clipboard` selects the clipboard source (and in particular never consults the
filesystem, so a path literally named `clipboard` is interpreted as the
clipboard source, not a file); then a descriptor prefixed with `http://` or
`https://` selects HTTP GET; anything else is treated as a local filesystem
path. -/
theorem c7_dispatch :
    (∀ (env : LoadEnv) (now : Nat), loadImagePart env now "-" = loadFromStdin env) ∧
    (∀ (env : LoadEnv) (now : Nat),
        loadImagePart env now "clipboard" = (loadFromClipboard env now).1) ∧
    (∀ (env : LoadEnv) (now : Nat) (fs' : String → Option (List Nat)),
        loadImagePart { env with fs := fs' } now "clipboard" =
          loadImagePart env now "clipboard") ∧
    (∀ (env : LoadEnv) (now : Nat) (source : String),
        source ≠ "-" → source ≠ "clipboard" →
        (strStartsWith source "http://" = true ∨ strStartsWith source "https://" = true) →
        loadImagePart env now source = loadFromUrl env source) ∧
    (∀ (env : LoadEnv) (now : Nat) (source : String),
        source ≠ "-" → source ≠ "clipboard" →
        strStartsWith source "http://" = false → strStartsWith source "https://" = false →
        loadImagePart env now source = loadFromFile env source) := by
  refine ⟨?stdin, ?clip, ?clipNoFs, ?url, ?file⟩
  case stdin =>
    intro env now
    unfold loadImagePart
    rw [if_pos rfl]
  case clip =>
    intro env now
    unfold loadImagePart
    rw [if_neg (by decide), if_pos rfl]
  case clipNoFs =>
    intro env now fs'
    rfl
  case url =>
    intro env now source h1 h2 h3
    unfold loadImagePart
    rw [if_neg h1, if_neg h2, if_pos (by rcases h3 with h | h <;> simp [h])]
  case file =>
    intro env now source h1 h2 h3 h4
    unfold loadImagePart
    rw [if_neg h1, if_neg h2, if_neg (by simp [h3, h4])]

/-- Witness for C7: the dispatch theorem applied to a concrete environment and
concrete descriptors of all four kinds. -/
theorem c7_dispatch_witness :
    (loadImagePart ⟨[1], fun _ => none, id, fun _ => FetchResult.fetchErr "", none⟩ 0 "-" =
      loadFromStdin ⟨[1], fun _ => none, id, fun _ => FetchResult.fetchErr "", none⟩) ∧
    (loadImagePart ⟨[1], fun _ => none, id, fun _ => FetchResult.fetchErr "", none⟩ 0
        "clipboard" =
      (loadFromClipboard ⟨[1], fun _ => none, id, fun _ => FetchResult.fetchErr "", none⟩ 0).1) ∧
    (loadImagePart ⟨[1], fun _ => none, id, fun _ => FetchResult.fetchErr "", none⟩ 0
        "http://example.com/a.png" =
      loadFromUrl ⟨[1], fun _ => none, id, fun _ => FetchResult.fetchErr "", none⟩
        "http://example.com/a.png") ∧
    (loadImagePart ⟨[1], fun _ => none, id, fun _ => FetchResult.fetchErr "", none⟩ 0
        "photo.jpg" =
      loadFromFile ⟨[1], fun _ => none, id, fun _ => FetchResult.fetchErr "", none⟩
        "photo.jpg") :=
  ⟨c7_dispatch.1 _ 0,
   c7_dispatch.2.1 _ 0,
   c7_dispatch.2.2.2.1 _ 0 _ (by decide) (by decide) (Or.inl (by decide)),
   c7_dispatch.2.2.2.2 _ 0 _ (by decide) (by decide) (by decide) (by decide)⟩

/-! ## C8: renderer modes -/

/-- The projection of a fragment list under one fixed render mode; spec-side
companion of `formatOutput` used to state that the five modes are mutually
exclusive (the output is a function of the selected mode alone). -/
def formatByMode : RenderMode → List ParsedPart → List String
  | RenderMode.jsonMode, parts => [jsonStringify parts]
  | RenderMode.quietMode, _ => []
  | RenderMode.codeOnly, parts =>
      parts.filterMap (fun p => if p.type == PartType.code then some p.content else none)
  | RenderMode.verboseMode, parts => parts.map verboseLine
  | RenderMode.defaultMode, parts =>
      parts.filterMap (fun p => if p.type == PartType.text then some p.content else none)

/-- Function `formatOutput` is the projection under the mode selected by the spec's
precedence rule. -/
theorem formatOutput_eq_formatByMode (parts : List ParsedPart) (opts : ImgxOptions) :
    formatOutput parts opts = formatByMode (modeOf opts) parts := by
  unfold formatOutput modeOf
  split_ifs <;> rfl

/-- Claim C8. The renderer's five modes are mutually exclusive and selected with
precedence JSON first, then quiet, then code-only, then verbose, else default:
the output is determined by the selected mode alone; when the selected mode is
quiet (`json` unset, `quiet` set) the renderer writes nothing to the primary
output stream, for every fragment sequence; and JSON takes precedence over the
quiet flag. -/
theorem c8_render_modes :
    (∀ (parts : List ParsedPart) (o1 o2 : ImgxOptions), modeOf o1 = modeOf o2 →
        formatOutput parts o1 = formatOutput parts o2) ∧
    (∀ (parts : List ParsedPart) (opts : ImgxOptions),
        opts.json = false → opts.quiet = true →
        modeOf opts = RenderMode.quietMode ∧ formatOutput parts opts = []) ∧
    (∀ (parts : List ParsedPart) (opts : ImgxOptions), opts.json = true →
        formatOutput parts opts = [jsonStringify parts]) ∧
    (∀ (parts : List ParsedPart) (opts : ImgxOptions),
        modeOf opts = RenderMode.quietMode → formatOutput parts opts = []) := by
  refine ⟨?determined, ?quietSel, ?jsonFirst, ?quietSilent⟩
  case determined =>
    intro parts o1 o2 h
    rw [formatOutput_eq_formatByMode, formatOutput_eq_formatByMode, h]
  case quietSel =>
    intro parts opts hj hq
    have hm : modeOf opts = RenderMode.quietMode := by unfold modeOf; simp [hj, hq]
    exact ⟨hm, by rw [formatOutput_eq_formatByMode, hm]; rfl⟩
  case jsonFirst =>
    intro parts opts hj
    unfold formatOutput
    rw [if_pos hj]
  case quietSilent =>
    intro parts opts hm
    rw [formatOutput_eq_formatByMode, hm]
    rfl

/-- Witness for C8: the mode theorem applied to a concrete quiet option record
and a concrete mixed fragment list. -/
theorem c8_render_modes_witness :
    formatOutput
      [⟨PartType.thought, "thinking...", none, none⟩,
       ⟨PartType.text, "The answer is 42.", none, none⟩,
       ⟨PartType.code, "print(42)", none, none⟩,
       ⟨PartType.result, "42", none, none⟩,
       ⟨PartType.image, "", some "image/png", some "AAA"⟩]
      ⟨false, false, ".", false, true, "gemini-3-flash-preview", none, none⟩ = [] :=
  (c8_render_modes.2.1 _ _ rfl rfl).2

/-! ## C4: response classification -/

/-- Claim C4. For every response the classifier considers only the first
candidate; each content element yields at most one fragment; the rules are
first-match-wins in the order reasoning-with-text, text, executable code with
non-empty code, code-execution-result (content = reported output or empty
string), inline binary data, and unmatched elements yield no fragment; and the
six-element example list classifies to exactly
`[Reasoning, Narration, Code, ExecutionResult(""), Image, Narration]`, in
input order, length 6. -/
theorem c4_classifier :
    (∀ (r : GenerateContentResponse) (c : GenCandidate) (rest : List GenCandidate),
        r.candidates = some (c :: rest) →
        parseResponse r = parseResponse ⟨some [c]⟩) ∧
    (∀ c : GenCandidate,
        (parseResponse ⟨some [c]⟩).length ≤
          ((c.content.bind GenContent.parts).getD []).length) ∧
    (∀ p : GenPart, p.thought = true → strTruthy p.text = true →
        classifyPart p = some ⟨PartType.thought, p.text.getD "", none, none⟩) ∧
    (∀ p : GenPart, p.thought = false → strTruthy p.text = true →
        classifyPart p = some ⟨PartType.text, p.text.getD "", none, none⟩) ∧
    (∀ p : GenPart, strTruthy p.text = false →
        strTruthy (p.executableCode.bind ExecutableCode.code) = true →
        classifyPart p =
          some ⟨PartType.code, (p.executableCode.bind ExecutableCode.code).getD "",
                none, none⟩) ∧
    (∀ p : GenPart, strTruthy p.text = false →
        strTruthy (p.executableCode.bind ExecutableCode.code) = false →
        p.codeExecutionResult.isSome = true →
        classifyPart p =
          some ⟨PartType.result,
                (p.codeExecutionResult.bind CodeExecutionResult.output).getD "",
                none, none⟩) ∧
    (∀ p : GenPart, strTruthy p.text = false →
        strTruthy (p.executableCode.bind ExecutableCode.code) = false →
        p.codeExecutionResult = none →
        strTruthy (p.inlineData.bind InlineData.data) = true →
        classifyPart p =
          some ⟨PartType.image, "", p.inlineData.bind InlineData.mimeType,
                p.inlineData.bind InlineData.data⟩) ∧
    (∀ p : GenPart, strTruthy p.text = false →
        strTruthy (p.executableCode.bind ExecutableCode.code) = false →
        p.codeExecutionResult = none →
        strTruthy (p.inlineData.bind InlineData.data) = false →
        classifyPart p = none) ∧
    (parseResponse ⟨some [⟨some ⟨some [
        ⟨true, some "I should analyze this", none, none, none⟩,
        ⟨false, some "Here is my analysis:", none, none, none⟩,
        ⟨false, none, some ⟨some "import cv2"⟩, none, none⟩,
        ⟨false, none, none, some ⟨none⟩, none⟩,
        ⟨false, none, none, none, some ⟨some "image/png", some "AAAA"⟩⟩,
        ⟨false, some "The annotated image is above.", none, none, none⟩]⟩⟩]⟩ =
      [⟨PartType.thought, "I should analyze this", none, none⟩,
       ⟨PartType.text, "Here is my analysis:", none, none⟩,
       ⟨PartType.code, "import cv2", none, none⟩,
       ⟨PartType.result, "", none, none⟩,
       ⟨PartType.image, "", some "image/png", some "AAAA"⟩,
       ⟨PartType.text, "The annotated image is above.", none, none⟩]) := by
  refine ⟨?first, ?atMostOne, ?rule1, ?rule2, ?rule3, ?rule4, ?rule5, ?skip, by decide⟩
  case first =>
    rintro ⟨cands⟩ c rest h
    simp only at h
    subst h
    rfl
  case atMostOne =>
    intro c
    exact List.length_filterMap_le _ _
  case rule1 =>
    intro p h1 h2
    simp [classifyPart, h1, h2]
  case rule2 =>
    intro p h1 h2
    simp [classifyPart, h1, h2]
  case rule3 =>
    intro p h1 h2
    simp [classifyPart, h1, h2]
  case rule4 =>
    intro p h1 h2 h3
    simp [classifyPart, h1, h2, h3]
  case rule5 =>
    intro p h1 h2 h3 h4
    simp [classifyPart, h1, h2, h3, h4]
  case skip =>
    intro p h1 h2 h3 h4
    simp [classifyPart, h1, h2, h3, h4]

/-- Witness for C4: the classifier theorem applied at concrete inputs — a
two-candidate response (only the first, empty, candidate counts) and concrete
elements for the reasoning and unmatched rules. -/
theorem c4_classifier_witness :
    (parseResponse ⟨some [⟨none⟩, ⟨some ⟨some [⟨false, some "x", none, none, none⟩]⟩⟩]⟩ =
      parseResponse ⟨some [(⟨none⟩ : GenCandidate)]⟩) ∧
    (classifyPart ⟨true, some "t", none, none, none⟩ =
      some ⟨PartType.thought, "t", none, none⟩) ∧
    (classifyPart ⟨false, none, none, none, none⟩ = none) :=
  ⟨c4_classifier.1 _ _ _ rfl,
   c4_classifier.2.2.1 ⟨true, some "t", none, none, none⟩ rfl (by decide),
   c4_classifier.2.2.2.2.2.2.2.1 ⟨false, none, none, none, none⟩ rfl rfl rfl rfl⟩

/-! ## C10: every loaded payload has an image/* MIME type -/

/-- Every media type the sniffer yields begins with `image/`. -/
theorem detect_image_mime {l : List Nat} {m : String}
    (h : detectMimeFromBytes l = some m) : strStartsWith m "image/" = true := by
  unfold detectMimeFromBytes at h
  split_ifs at h <;> (injection h with h'; subst h'; decide)

/-- A lookup in a table whose values all begin with `image/` yields a value
beginning with `image/`. -/
theorem lookup_image_mime :
    ∀ (l : List (String × String)), (∀ p ∈ l, strStartsWith p.2 "image/" = true) →
      ∀ (k r : String), l.lookup k = some r → strStartsWith r "image/" = true := by
  intro l
  induction l with
  | nil => intro _ k r h; simp [List.lookup] at h
  | cons hd tl ih =>
    intro hall k r h
    unfold List.lookup at h
    split at h
    · injection h with h'
      subst h'
      exact hall hd (List.mem_cons_self hd tl)
    · exact ih (fun p hp => hall p (List.mem_cons_of_mem hd hp)) k r h

/-- Defaulting an optional `image/*` value with an `image/*` default stays in
`image/*`. -/
theorem getD_image {o : Option String} {d : String}
    (ho : ∀ m, o = some m → strStartsWith m "image/" = true)
    (hd : strStartsWith d "image/" = true) :
    strStartsWith (o.getD d) "image/" = true := by
  cases o with
  | none => exact hd
  | some m => exact ho m rfl

/-- The extension fallback always resolves to an `image/*` type. -/
theorem mimeFromExtension_image (p : String) :
    strStartsWith (mimeFromExtension p) "image/" = true := by
  show strStartsWith
    ((List.lookup (lastDotExt (String.mk (p.data.map Char.toLower))) MIME_EXTENSIONS).getD
      "image/jpeg") "image/" = true
  exact getD_image (fun v hv => lookup_image_mime MIME_EXTENSIONS (by decide) _ v hv)
    (by decide)

/-- The file-loading path only produces `image/*` MIME types. -/
theorem loadFromFileAux_mime {fp : String} {content : Option (List Nat)} {part : MediaPart}
    (h : loadFromFileAux fp content = Except.ok part) :
    strStartsWith part.mimeType "image/" = true := by
  cases content with
  | none => exact Except.noConfusion h
  | some bytes =>
    simp only [loadFromFileAux] at h
    by_cases hb : bytes = []
    · rw [if_pos hb] at h
      exact Except.noConfusion h
    · rw [if_neg hb] at h
      injection h with h'
      subst h'
      exact getD_image (fun m hm => detect_image_mime hm) (mimeFromExtension_image fp)

/-- The stdin path only produces `image/*` MIME types. -/
theorem loadFromStdin_mime {env : LoadEnv} {part : MediaPart}
    (h : loadFromStdin env = Except.ok part) :
    strStartsWith part.mimeType "image/" = true := by
  unfold loadFromStdin at h
  by_cases hb : env.stdinBytes = []
  · rw [if_pos hb] at h
    exact Except.noConfusion h
  · rw [if_neg hb] at h
    injection h with h'
    subst h'
    exact getD_image (fun m hm => detect_image_mime hm) (by decide)

/-- The URL path only produces `image/*` MIME types: the declared content-type
header is adopted only when it itself begins with `image/`. -/
theorem loadFromUrl_mime {env : LoadEnv} {url : String} {part : MediaPart}
    (h : loadFromUrl env url = Except.ok part) :
    strStartsWith part.mimeType "image/" = true := by
  simp only [loadFromUrl] at h
  split at h
  · exact Except.noConfusion h
  · split at h
    · exact Except.noConfusion h
    · split at h
      · exact Except.noConfusion h
      · injection h with h'
        subst h'
        refine getD_image (fun m hm => detect_image_mime hm) ?_
        split_ifs with hct
        · exact hct
        · decide

/-- The clipboard path only produces `image/*` MIME types (it delegates to the
file-loading path against the temporary `.png` file). -/
theorem loadFromClipboard_mime {env : LoadEnv} {now : Nat} {part : MediaPart}
    (h : (loadFromClipboard env now).1 = Except.ok part) :
    strStartsWith part.mimeType "image/" = true := by
  unfold loadFromClipboard at h
  rcases hclip : env.clipboardPng with - | bytes
  · rw [hclip] at h
    exact Except.noConfusion h
  · rw [hclip] at h
    have h2 : (match loadFromFileAux (clipboardTmpPath now) (some bytes) with
        | Except.error e => ((Except.error e : Except Nat MediaPart), true)
        | Except.ok p => (Except.ok p, false)).1 = Except.ok part := h
    rcases haux : loadFromFileAux (clipboardTmpPath now) (some bytes) with e | p
    · rw [haux] at h2
      exact Except.noConfusion h2
    · rw [haux] at h2
      injection h2 with h'
      subst h'
      exact loadFromFileAux_mime haux

/-- Claim C10. Every `MediaPayload` successfully produced by the loader, from
any of the four source kinds, has a MIME type beginning with `image/`: the
sniffer yields only `image/*` values, the extension table and its default are
`image/*`, the stdin default is `image/png`, and a URL content-type header is
adopted only when it begins with `image/` (otherwise `image/jpeg`). -/
theorem c10_payload_mime (env : LoadEnv) (now : Nat) (source : String) (part : MediaPart)
    (h : loadImagePart env now source = Except.ok part) :
    strStartsWith part.mimeType "image/" = true := by
  unfold loadImagePart at h
  split_ifs at h
  · exact loadFromStdin_mime h
  · exact loadFromClipboard_mime h
  · exact loadFromUrl_mime h
  · unfold loadFromFile at h
    exact loadFromFileAux_mime h

/-- Witness for C10: the invariant theorem applied to a concrete stdin load
whose bytes match no signature (so the stdin default `image/png` is used). -/
theorem c10_payload_mime_witness :
    strStartsWith (makePart (toBase64 [9, 9]) "image/png").mimeType "image/" = true :=
  c10_payload_mime ⟨[9, 9], fun _ => none, id, fun _ => FetchResult.fetchErr "", none⟩ 0 "-"
    (makePart (toBase64 [9, 9]) "image/png") rfl

/-! ## C5: file MIME resolution — sniffer first, extension fallback -/

/-- Claim C5. For every file source the MIME type is resolved by the byte
sniffer first: whenever the sniffer recognizes the bytes its answer is used
whatever the path looks like; only when the sniffer returns `Unknown` is the
case-insensitive final-dot-extension lookup used, with the table of §4.2 and
terminal default `image/jpeg` for an unmatched or absent extension; and a file
named `test.dat` containing JPEG magic bytes classifies as `image/jpeg`. -/
theorem c5_file_mime :
    (∀ (env : LoadEnv) (path : String) (bytes : List Nat) (m : String),
        env.fs (env.resolvePath path) = some bytes → bytes ≠ [] →
        detectMimeFromBytes bytes = some m →
        loadFromFile env path = Except.ok (makePart (toBase64 bytes) m)) ∧
    (∀ (env : LoadEnv) (path : String) (bytes : List Nat),
        env.fs (env.resolvePath path) = some bytes → bytes ≠ [] →
        detectMimeFromBytes bytes = none →
        loadFromFile env path =
          Except.ok (makePart (toBase64 bytes) (mimeFromExtension path))) ∧
    (mimeFromExtension "photo.jpg" = "image/jpeg" ∧
     mimeFromExtension "photo.jpeg" = "image/jpeg" ∧
     mimeFromExtension "image.png" = "image/png" ∧
     mimeFromExtension "file.webp" = "image/webp" ∧
     mimeFromExtension "anim.gif" = "image/gif" ∧
     mimeFromExtension "pic.heic" = "image/heic" ∧
     mimeFromExtension "pic.heif" = "image/heif" ∧
     mimeFromExtension "pic.bmp" = "image/bmp" ∧
     mimeFromExtension "pic.tiff" = "image/tiff" ∧
     mimeFromExtension "pic.tif" = "image/tiff" ∧
     mimeFromExtension "icon.svg" = "image/svg+xml" ∧
     mimeFromExtension "PHOTO.JPG" = "image/jpeg" ∧
     mimeFromExtension "image.PNG" = "image/png" ∧
     mimeFromExtension "file.xyz" = "image/jpeg" ∧
     mimeFromExtension "noext" = "image/jpeg") ∧
    (∀ p : String,
        List.lookup (lastDotExt (String.mk (p.data.map Char.toLower))) MIME_EXTENSIONS =
          none →
        mimeFromExtension p = "image/jpeg") ∧
    (loadFromFile
        ⟨[], fun p => if p = "test.dat" then some [0xff, 0xd8, 0xff, 0xe0] else none, id,
         fun _ => FetchResult.fetchErr "", none⟩ "test.dat" =
      Except.ok (makePart (toBase64 [0xff, 0xd8, 0xff, 0xe0]) "image/jpeg")) := by
  refine ⟨?sniffFirst, ?extFallback, by decide, ?defaultJpeg, rfl⟩
  case sniffFirst =>
    intro env path bytes m h1 h2 h3
    unfold loadFromFile
    rw [h1]
    simp only [loadFromFileAux]
    rw [if_neg h2, h3]
    rfl
  case extFallback =>
    intro env path bytes h1 h2 h3
    unfold loadFromFile
    rw [h1]
    simp only [loadFromFileAux]
    rw [if_neg h2, h3]
    rfl
  case defaultJpeg =>
    intro p h
    show (List.lookup (lastDotExt (String.mk (p.data.map Char.toLower)))
      MIME_EXTENSIONS).getD "image/jpeg" = "image/jpeg"
    rw [h]
    rfl

/-- Witness for C5: the resolution theorem applied to concrete environments —
JPEG magic bytes under a `.dat` name (sniffer wins) and unrecognizable bytes
under a `.webp` name (extension fallback). -/
theorem c5_file_mime_witness :
    (loadFromFile
        ⟨[], fun p => if p = "x.dat" then some [0xff, 0xd8, 0xff, 0x00] else none, id,
         fun _ => FetchResult.fetchErr "", none⟩ "x.dat" =
      Except.ok (makePart (toBase64 [0xff, 0xd8, 0xff, 0x00]) "image/jpeg")) ∧
    (loadFromFile
        ⟨[], fun p => if p = "p.webp" then some [1, 2, 3] else none, id,
         fun _ => FetchResult.fetchErr "", none⟩ "p.webp" =
      Except.ok (makePart (toBase64 [1, 2, 3]) (mimeFromExtension "p.webp"))) ∧
    mimeFromExtension "p.webp" = "image/webp" :=
  ⟨c5_file_mime.1 _ "x.dat" [0xff, 0xd8, 0xff, 0x00] "image/jpeg" rfl (by decide) (by decide),
   c5_file_mime.2.1 _ "p.webp" [1, 2, 3] rfl (by decide) (by decide),
   by decide⟩

/-! ## C9: base64 round-trip through the persister -/

/-- Decoding the alphabet character of a 6-bit value recovers the value. -/
theorem b64Val_b64Char : ∀ v : Nat, v < 64 → b64Val (b64Char v) = v := by decide

/-- Alphabet characters are never the padding character. -/
theorem b64Char_ne_pad : ∀ v : Nat, v < 64 → b64Char v ≠ '=' := by decide

/-- Base64 round-trip on byte lists: decoding an encoding reproduces the
original bytes. -/
theorem decodeB64_encodeB64 :
    ∀ bytes : List Nat, (∀ x ∈ bytes, x < 256) → decodeB64 (encodeB64 bytes) = bytes
  | [], _ => rfl
  | [a], h => by
    have ha : a < 256 := h a (by simp)
    show decodeB64 [b64Char (a / 4), b64Char (a % 4 * 16), '=', '='] = [a]
    rw [decodeB64, if_pos rfl, b64Val_b64Char _ (by omega), b64Val_b64Char _ (by omega)]
    have hv : a / 4 * 4 + a % 4 * 16 / 16 = a := by omega
    rw [hv]
  | [a, b], h => by
    have ha : a < 256 := h a (by simp)
    have hb : b < 256 := h b (by simp)
    show decodeB64
      [b64Char (a / 4), b64Char (a % 4 * 16 + b / 16), b64Char (b % 16 * 4), '='] = [a, b]
    rw [decodeB64, if_neg (b64Char_ne_pad _ (by omega)), if_pos rfl,
        b64Val_b64Char _ (by omega), b64Val_b64Char _ (by omega),
        b64Val_b64Char _ (by omega)]
    have h1 : a / 4 * 4 + (a % 4 * 16 + b / 16) / 16 = a := by omega
    have h2 : (a % 4 * 16 + b / 16) % 16 * 16 + b % 16 * 4 / 4 = b := by omega
    rw [h1, h2]
  | a :: b :: c :: rest, h => by
    have ha : a < 256 := h a (by simp)
    have hb : b < 256 := h b (by simp)
    have hc : c < 256 := h c (by simp)
    have ih := decodeB64_encodeB64 rest (fun x hx => h x (by simp [hx]))
    show decodeB64 (b64Char (a / 4) :: b64Char (a % 4 * 16 + b / 16) ::
      b64Char (b % 16 * 4 + c / 64) :: b64Char (c % 64) :: encodeB64 rest) =
      a :: b :: c :: rest
    rw [decodeB64, if_neg (b64Char_ne_pad _ (by omega)),
        if_neg (b64Char_ne_pad _ (by omega)),
        b64Val_b64Char _ (by omega), b64Val_b64Char _ (by omega),
        b64Val_b64Char _ (by omega), b64Val_b64Char _ (by omega)]
    have h1 : a / 4 * 4 + (a % 4 * 16 + b / 16) / 16 = a := by omega
    have h2 : (a % 4 * 16 + b / 16) % 16 * 16 + (b % 16 * 4 + c / 64) / 4 = b := by omega
    have h3 : (b % 16 * 4 + c / 64) % 4 * 64 + c % 64 = c := by omega
    rw [h1, h2, h3, ih]

/-- The 70-byte minimal 1×1 PNG used by the repository's tests (the base64
string `iVBORw0KGgo...` from `input.test.ts`, decoded). -/
def minimalPng : List Nat :=
  [137, 80, 78, 71, 13, 10, 26, 10, 0, 0, 0, 13, 73, 72, 68, 82, 0, 0, 0, 1, 0, 0, 0, 1,
   8, 6, 0, 0, 0, 31, 21, 196, 137, 0, 0, 0, 13, 73, 68, 65, 84, 120, 218, 99, 252, 255,
   159, 161, 30, 0, 7, 130, 2, 127, 61, 200, 72, 239, 0, 0, 0, 0, 73, 69, 78, 68, 174,
   66, 96, 130]

/-- Claim C9. For every byte sequence, encoding it to base64 as the loader does
(`toBase64`) and then decoding it via the persister's write path
(`Buffer.from(data, "base64")`, i.e. `decodeB64`) reproduces the original
bytes exactly; the persister therefore writes back exactly the bytes that were
encoded; and the round-trip holds for a real minimal PNG payload (the one in
the repository's tests, whose encoding is that test's base64 string). -/
theorem c9_roundtrip :
    (∀ bytes : List Nat, (∀ x ∈ bytes, x < 256) →
        decodeB64 (encodeB64 bytes) = bytes) ∧
    (∀ (bytes : List Nat) (dir : String) (clock : Nat → Nat) (mt : Option String),
        (∀ x ∈ bytes, x < 256) →
        (saveImages [⟨PartType.image, "", mt, some (toBase64 bytes)⟩] dir clock).map
          WrittenFile.bytes = [bytes]) ∧
    toBase64 minimalPng =
      "iVBORw0KGgoAAAANSUhEUgAAAAEAAAABCAYAAAAfFcSJAAAADUlEQVR42mP8/5+hHgAHggJ/PchI7wAAAABJRU5ErkJggg==" ∧
    decodeB64 (encodeB64 minimalPng) = minimalPng ∧
    detectMimeFromBytes minimalPng = some "image/png" := by
  refine ⟨decodeB64_encodeB64, ?persist, by decide, ?png, by decide⟩
  case persist =>
    intro bytes dir clock mt hb
    show [decodeB64 (toBase64 bytes).data] = [bytes]
    show [decodeB64 (encodeB64 bytes)] = [bytes]
    rw [decodeB64_encodeB64 bytes hb]
  case png =>
    exact decodeB64_encodeB64 minimalPng (by decide)

/-- Witness for C9: the round-trip theorem applied to a concrete byte list,
both directly and through the persister. -/
theorem c9_roundtrip_witness :
    decodeB64 (encodeB64 [0, 255, 10]) = [0, 255, 10] ∧
    (saveImages [⟨PartType.image, "", some "image/png", some (toBase64 [0, 255, 10])⟩]
        "out" (fun _ => 0)).map WrittenFile.bytes = [[0, 255, 10]] :=
  ⟨c9_roundtrip.1 [0, 255, 10] (by decide),
   c9_roundtrip.2.1 [0, 255, 10] "out" (fun _ => 0) (some "image/png") (by decide)⟩

/-! ## C1: clipboard temporary file cleanup -/

/-- Counterexample to C1: when the clipboard holds no image data, the
AppleScript helper has already created the temporary file, the function calls
`process.exit` before the cleanup line, and the temporary file is left on
disk — the second component of `loadFromClipboard` is `true`. -/
theorem c1_counterexample :
    (loadFromClipboard ⟨[], fun _ => none, id, fun _ => FetchResult.fetchErr "", none⟩
      1234).2 = true := rfl

/-- Claim C1, amended. The clipboard temporary file is deleted exactly when the
delegation to the file loader succeeds; on the failure paths (no image data in
the clipboard, or the delegated file load exits the process) the cleanup after
the `loadFromFile` call never runs and the temporary file remains on disk. -/
theorem c1_cleanup (env : LoadEnv) (now : Nat) :
    (∃ p, (loadFromClipboard env now).1 = Except.ok p) ↔
      (loadFromClipboard env now).2 = false := by
  unfold loadFromClipboard
  rcases env.clipboardPng with - | bytes
  · simp
  · show (∃ p, (match loadFromFileAux (clipboardTmpPath now) (some bytes) with
        | Except.error e => ((Except.error e : Except Nat MediaPart), true)
        | Except.ok q => (Except.ok q, false)).1 = Except.ok p) ↔
      (match loadFromFileAux (clipboardTmpPath now) (some bytes) with
        | Except.error e => ((Except.error e : Except Nat MediaPart), true)
        | Except.ok q => (Except.ok q, false)).2 = false
    rcases loadFromFileAux (clipboardTmpPath now) (some bytes) with e | p
    · simp
    · simp

/-- Witness for C1 (amended): a concrete environment whose clipboard holds
image bytes; the load succeeds, which by the theorem means the temporary file
was removed. -/
theorem c1_cleanup_witness :
    ∃ p, (loadFromClipboard ⟨[], fun _ => none, id, fun _ => FetchResult.fetchErr "",
      some [1, 2]⟩ 7).1 = Except.ok p :=
  (c1_cleanup ⟨[], fun _ => none, id, fun _ => FetchResult.fetchErr "", some [1, 2]⟩ 7).mpr
    (by decide)

/-! ## C2: persisted file names -/

/-- Counterexample to C2: the code reads `Date.now()` separately for every
image inside the loop, so with a clock that advances by one millisecond
between the two writes the two files carry two different timestamps — there is
no single persist-call timestamp `t` shared by all files of the call. -/
theorem c2_counterexample :
    ¬ ∃ t : Nat, ∀ w ∈ saveImages
        [⟨PartType.image, "", some "image/png", some "AA"⟩,
         ⟨PartType.image, "", some "image/png", some "AA"⟩] "out" (fun k => 1000 + k),
        w.timestamp = t := by
  rintro ⟨t, h⟩
  have h0 : (1000 : Nat) = t := h ⟨"out", 1000, 0, "png", [0]⟩ (by decide)
  have h1 : (1001 : Nat) = t := h ⟨"out", 1001, 1, "png", [0]⟩ (by decide)
  omega

/-- The shape of the `saveImages` loop output, for any starting index. -/
theorem saveImagesGo_spec (clock : Nat → Nat) (dir : String) :
    ∀ (imgs : List ParsedPart) (k : Nat),
      ((saveImagesGo clock dir imgs k).map WrittenFile.index =
        List.range' k imgs.length) ∧
      ((saveImagesGo clock dir imgs k).map WrittenFile.timestamp =
        (List.range' k imgs.length).map clock) ∧
      (∀ w ∈ saveImagesGo clock dir imgs k, w.dir = dir) := by
  intro imgs
  induction imgs with
  | nil => intro k; exact ⟨rfl, rfl, by simp [saveImagesGo]⟩
  | cons img rest ih =>
    intro k
    obtain ⟨ih1, ih2, ih3⟩ := ih (k + 1)
    refine ⟨?_, ?_, ?_⟩
    · simp [saveImagesGo, List.range', ih1]
    · simp [saveImagesGo, List.range', ih2]
    · intro w hw
      rw [saveImagesGo] at hw
      rcases List.mem_cons.mp hw with hw | hw
      · rw [hw]
      · exact ih3 w hw

/-- Claim C2, amended. Every file written by a persist call is named
`imgx-<t_i>-<i>.<ext>` where `i` is the zero-based index of the image within
this persist call (`0 .. n-1`, in sequence order) and `t_i` is the millisecond
clock reading taken when that particular image is written (the code reads
`Date.now()` once per image inside the loop, not once per call); in
particular, whenever the clock reads the same value `t` throughout the call —
e.g. when all writes land in the same millisecond — every file of the call
carries that single `t`. -/
theorem c2_filenames (parts : List ParsedPart) (dir : String) (clock : Nat → Nat) :
    ((saveImages parts dir clock).map WrittenFile.index =
      List.range (parts.filter (fun p => p.type == PartType.image)).length) ∧
    ((saveImages parts dir clock).map WrittenFile.timestamp =
      (List.range (parts.filter (fun p => p.type == PartType.image)).length).map clock) ∧
    (∀ w ∈ saveImages parts dir clock,
      filePath w = dir ++ "/" ++ ("imgx-" ++ toString w.timestamp ++ "-" ++
        toString w.index ++ "." ++ w.ext)) ∧
    (∀ t : Nat, (∀ k, clock k = t) →
      ∀ w ∈ saveImages parts dir clock, w.timestamp = t) := by
  obtain ⟨h1, h2, h3⟩ :=
    saveImagesGo_spec clock dir (parts.filter (fun p => p.type == PartType.image)) 0
  refine ⟨?_, ?_, ?_, ?_⟩
  · rw [List.range_eq_range']
    exact h1
  · rw [List.range_eq_range']
    exact h2
  · intro w hw
    show joinPath w.dir (fileName w) = _
    rw [h3 w hw]
    rfl
  · intro t ht w hw
    have hmem : w.timestamp ∈ (saveImages parts dir clock).map WrittenFile.timestamp :=
      List.mem_map_of_mem WrittenFile.timestamp hw
    simp only [saveImages] at hmem
    rw [h2] at hmem
    rcases List.mem_map.mp hmem with ⟨k, -, hk⟩
    rw [← hk, ht k]

/-- Witness for C2 (amended): the filename theorem applied to a concrete
persist call with one image and a constant clock. -/
theorem c2_filenames_witness :
    ((saveImages [⟨PartType.image, "", some "image/png", some "AA"⟩] "d"
        (fun _ => 77)).map WrittenFile.index =
      List.range ([(⟨PartType.image, "", some "image/png", some "AA"⟩ : ParsedPart)].filter
        (fun p => p.type == PartType.image)).length) ∧
    WrittenFile.timestamp ⟨"d", 77, 0, "png", [0]⟩ = 77 :=
  ⟨(c2_filenames [⟨PartType.image, "", some "image/png", some "AA"⟩] "d" (fun _ => 77)).1,
   (c2_filenames [⟨PartType.image, "", some "image/png", some "AA"⟩] "d"
     (fun _ => 77)).2.2.2 77 (fun _ => rfl) ⟨"d", 77, 0, "png", [0]⟩ (by decide)⟩

/-! ## C3: extension derivation from the MIME type -/

/-- Counterexample to C3: the code applies a substring replacement
(`.replace("jpeg", "jpg")`), not an exact-subtype mapping, so the subtype
`jpeg2000` does not pass through verbatim but becomes `jpg2000`; moreover the
`png` default also fires for a present MIME type that lacks a subtype, so the
default is not used *exactly* when the MIME type is absent. -/
theorem c3_counterexample :
    ("jpeg2000" : String) ≠ "jpeg" ∧
    imageExt (some "image/jpeg2000") ≠ "jpeg2000" ∧
    imageExt (some "image/jpeg2000") = "jpg2000" ∧
    imageExt (some "weird") = "png" := by decide

/-- Function `splitOnChar` on a list avoiding the separator yields a single group. -/
theorem splitOnChar_not_mem (sep : Char) :
    ∀ l : List Char, sep ∉ l → splitOnChar sep l = [l] := by
  intro l
  induction l with
  | nil => intro _; rfl
  | cons c rest ih =>
    intro h
    have hc : ¬(c = sep) := fun hh => h (hh ▸ List.mem_cons_self c rest)
    have hr : sep ∉ rest := fun hh => h (List.mem_cons_of_mem c hh)
    rw [splitOnChar, ih hr]
    simp [hc]

/-- Function `splitOnChar` never returns the empty list of groups. -/
theorem splitOnChar_ne_nil (sep : Char) : ∀ l : List Char, splitOnChar sep l ≠ [] := by
  intro l
  cases l with
  | nil => simp [splitOnChar]
  | cons c rest =>
    rw [splitOnChar]
    rcases splitOnChar sep rest with - | ⟨g, gs⟩
    · simp
    · by_cases hc : c = sep <;> simp [hc]

/-- Function `splitOnChar` across the first separator occurrence: the part before it
becomes the first group. -/
theorem splitOnChar_append (sep : Char) :
    ∀ (pre rest : List Char), sep ∉ pre →
      splitOnChar sep (pre ++ sep :: rest) = pre :: splitOnChar sep rest := by
  intro pre
  induction pre with
  | nil =>
    intro rest _
    rw [List.nil_append, splitOnChar]
    rcases hsp : splitOnChar sep rest with - | ⟨g, gs⟩
    · exact absurd hsp (splitOnChar_ne_nil sep rest)
    · simp
  | cons c pre ih =>
    intro rest h
    have hc : ¬(c = sep) := fun hh => h (hh ▸ List.mem_cons_self c pre)
    have hp : sep ∉ pre := fun hh => h (List.mem_cons_of_mem c hh)
    rw [List.cons_append, splitOnChar, ih rest hp]
    simp [hc]

/-- A pattern that does not occur as a substring is not replaced. -/
theorem listReplaceFirst_not_hasSubstr (pat rep : List Char) :
    ∀ sub : List Char, hasSubstr pat sub = false →
      listReplaceFirst pat rep sub = sub := by
  intro sub
  induction sub with
  | nil =>
    intro h
    rw [hasSubstr] at h
    rw [listReplaceFirst, if_neg]
    intro hh
    subst hh
    simp at h
  | cons c rest ih =>
    intro h
    rw [hasSubstr] at h
    rcases Bool.or_eq_false_iff.mp h with ⟨h1, h2⟩
    rw [listReplaceFirst, if_neg (by simp [h1]), ih h2]

/-- Claim C3, amended. The extension is derived from the MIME type by taking
the text between the first and second `/` and replacing the first occurrence
of the *substring* `jpeg` by `jpg` (so subtype `jpeg` maps to `jpg`, and any
subtype without `jpeg` as a substring passes through verbatim, but e.g.
`jpeg2000` becomes `jpg2000`); the extension defaults to `png` when the MIME
type is absent or has no `/`-separated subtype; and two Image fragments with
MIME types image/png and image/jpeg yield two paths ending `.png` and `.jpg`
respectively, in input order. -/
theorem c3_extension :
    imageExt none = "png" ∧
    (∀ m : String, '/' ∉ m.data → imageExt (some m) = "png") ∧
    (∀ pre sub : List Char, '/' ∉ pre → '/' ∉ sub →
        imageExt (some (String.mk (pre ++ '/' :: sub))) =
          String.mk (listReplaceFirst ['j', 'p', 'e', 'g'] ['j', 'p', 'g'] sub)) ∧
    (∀ sub : List Char, hasSubstr ['j', 'p', 'e', 'g'] sub = false →
        listReplaceFirst ['j', 'p', 'e', 'g'] ['j', 'p', 'g'] sub = sub) ∧
    imageExt (some "image/jpeg") = "jpg" ∧
    imageExt (some "image/png") = "png" ∧
    ((saveImages
        [⟨PartType.image, "", some "image/png", some "AA"⟩,
         ⟨PartType.image, "", some "image/jpeg", some "AA"⟩] "." (fun _ => 0)).map
      filePath = ["./imgx-0-0.png", "./imgx-0-1.jpg"]) := by
  refine ⟨rfl, ?noSlash, ?subtype, listReplaceFirst_not_hasSubstr _ _, by decide, by decide,
    by decide⟩
  case noSlash =>
    intro m h
    show (match (splitOnChar '/' m.data).get? 1 with
      | none => "png"
      | some sub => String.mk (listReplaceFirst ['j', 'p', 'e', 'g'] ['j', 'p', 'g'] sub)) =
      "png"
    rw [splitOnChar_not_mem '/' m.data h]
    rfl
  case subtype =>
    intro pre sub hpre hsub
    show (match (splitOnChar '/' (pre ++ '/' :: sub)).get? 1 with
      | none => "png"
      | some s => String.mk (listReplaceFirst ['j', 'p', 'e', 'g'] ['j', 'p', 'g'] s)) =
      String.mk (listReplaceFirst ['j', 'p', 'e', 'g'] ['j', 'p', 'g'] sub)
    rw [splitOnChar_append '/' pre sub hpre, splitOnChar_not_mem '/' sub hsub]
    rfl

/-- Witness for C3 (amended): the extension theorem applied at concrete
inputs — a slash-free MIME type (default `png`) and a concrete subtype with no
`jpeg` substring (verbatim pass-through). -/
theorem c3_extension_witness :
    imageExt (some "weird") = "png" ∧
    listReplaceFirst ['j', 'p', 'e', 'g'] ['j', 'p', 'g'] ['w', 'e', 'b', 'p'] =
      ['w', 'e', 'b', 'p'] :=
  ⟨c3_extension.2.1 "weird" (by decide),
   c3_extension.2.2.2.1 ['w', 'e', 'b', 'p'] (by decide)⟩
